import Mathlib

/-!
Verification development for the BiasClean v2.0 fairness engine
(`BiasClean_V2.0.py`).  The Python code is shallowly embedded: a dataset is a
list of records, a record is an association list from column names to scalar
values (categorical strings or numbers, modelled as exact rationals), and the
nondeterministic parts of the pipeline (row sampling, numeric jitter) are
abstracted as explicit function parameters whose contracts appear as theorem
hypotheses.  External library calls (scipy's chi-square p-value, scipy's
Wasserstein distance) are likewise passed in as function parameters.
-/

namespace BiasClean

/-- A scalar cell value: a categorical string or a numeric value
(Python floats are modelled as exact rationals). -/
inductive Val where
  | str (s : String)
  | num (q : ℚ)
deriving DecidableEq, Repr

/-- A record: mapping from column name to value (pandas row). -/
abbrev Row := List (String × Val)

/-- A dataset: ordered sequence of records (pandas DataFrame). -/
abbrev Dataset := List Row

/-- Value of column `c` in record `r` (`none` = column absent / NaN). -/
def getVal (r : Row) (c : String) : Option Val :=
  List.lookup c r

/-- `len(df[df[f] == g])`: number of rows whose column `f` holds value `g`. -/
def cnt (df : Dataset) (f : String) (g : Val) : ℕ :=
  (df.filter (fun r => decide (getVal r f = some g))).length

/-- The non-null entries of column `f`, in row order
(what `df[f].value_counts` counts over). -/
def colVals (df : Dataset) (f : String) : List Val :=
  df.filterMap (fun r => getVal r f)

/-- Number of non-null entries of column `f` (the denominator of
`value_counts(normalize=True)`). -/
def colLen (df : Dataset) (f : String) : ℕ :=
  (colVals df f).length

/-- The distinct categories of column `f`, in first-occurrence order.
(`value_counts` orders by descending count; only the set of categories and
their counts matter to every property proved below.) -/
def cats (df : Dataset) (f : String) : List Val :=
  (colVals df f).dedup

/-- Number of distinct categories of column `f`. -/
def numCats (df : Dataset) (f : String) : ℕ :=
  (cats df f).length

/-- Relative frequency of category `g` in column `f`
(`value_counts(normalize=True)[g]`). -/
def prop (df : Dataset) (f : String) (g : Val) : ℚ :=
  (cnt df f g : ℚ) / (colLen df f : ℚ)

/-- `f in df.columns` (some record carries the column). -/
def hasCol (df : Dataset) (f : String) : Bool :=
  df.any (fun r => (getVal r f).isSome)

/-- Positions (0-based row indices) of the rows satisfying `P`, starting the
count at `i`. -/
def idxAux (P : Row → Bool) : ℕ → Dataset → List ℕ
  | _, [] => []
  | i, r :: rs => if P r then i :: idxAux P (i + 1) rs else idxAux P (i + 1) rs

/-- Row indices of the rows of group `(f, g)` (`df[df[f] == g].index`). -/
def groupIdx (df : Dataset) (f : String) (g : Val) : List ℕ :=
  idxAux (fun r => decide (getVal r f = some g)) 0 df

/-- Drop the rows whose position (counted from `i`) lies in `U`. -/
def dropIdxAux (U : Finset ℕ) : ℕ → Dataset → Dataset
  | _, [] => []
  | i, r :: rs => if i ∈ U then dropIdxAux U (i + 1) rs else r :: dropIdxAux U (i + 1) rs

/-- `df.drop(U)`: the dataset without the rows whose index lies in `U`. -/
def afterRemoval (df : Dataset) (U : Finset ℕ) : Dataset :=
  dropIdxAux U 0 df

/-- A deterministic stand-in for `DataFrame.sample(n)` without replacement:
the first `n` row indices of the group.  Used to instantiate sampler
hypotheses in witnesses. -/
def canonicalSample (df : Dataset) (f : String) (g : Val) (n : ℕ) : Finset ℕ :=
  ((groupIdx df f g).take n).toFinset

/-- A uniform block of `n` identical single-column records, used to build
concrete scenario datasets. -/
def block (f : String) (v : Val) (n : ℕ) : Dataset :=
  List.replicate n [(f, v)]



/-! ## Statistical diagnosis (`comprehensive_statistical_diagnosis`) -/

/-- Per-feature result of the chi-square goodness-of-fit test. -/
structure FeatureStats where
  chi2Statistic : ℚ
  pValue : ℚ
  significantBias : Bool
  effectSize : ℚ
deriving DecidableEq, Repr

/-- The dictionary returned by `comprehensive_statistical_diagnosis`:
per-feature tests plus the dataset size. -/
structure Diagnostics where
  featureTests : List (String × FeatureStats)
  datasetSize : ℕ
deriving DecidableEq, Repr

/-- `significant_bias_count`: number of features flagged significant. -/
def significantBiasCount (d : Diagnostics) : ℕ :=
  d.featureTests.countP (fun fs => fs.2.significantBias)

/-- `requires_mitigation`: at least one significant bias. -/
def requiresMitigation (d : Diagnostics) : Bool :=
  decide (0 < significantBiasCount d)

/-- Chi-square goodness-of-fit statistic of column `f` against the uniform
expectation `len(df)/k`, rescaled so the expected total matches the observed
total exactly (the code's floating-point-sum correction). -/
def chi2Stat (df : Dataset) (f : String) : ℚ :=
  let obs := (cats df f).map (fun g => cnt df f g)
  let k := obs.length
  let osum : ℚ := (obs.sum : ℕ)
  let e0 : ℚ := (df.length : ℚ) / (k : ℚ)
  let e : ℚ := if osum = (df.length : ℚ) then e0 else e0 * osum / (df.length : ℚ)
  (obs.map (fun o => ((o : ℚ) - e) ^ 2 / e)).sum

/-- `comprehensive_statistical_diagnosis(df, domain_weights, alpha)`.
`sf` is scipy's chi-square survival function (p-value of a statistic given
the number of categories), passed in as an abstract parameter since scipy is
an external library. -/
def comprehensiveStatisticalDiagnosis (sf : ℚ → ℕ → ℚ) (df : Dataset)
    (weights : List (String × ℚ)) (alpha : ℚ) : Diagnostics :=
  let fts := ((weights.map Prod.fst).filter (fun f => hasCol df f)).map (fun f =>
    let stat := chi2Stat df f
    let p := sf stat (numCats df f)
    (f, ⟨stat, p, decide (p < alpha), stat / (df.length : ℚ)⟩))
  ⟨fts, df.length⟩

/-! ## Policy A: `_evidence_based_rebalancing` (unconstrained "surgical") -/

/-- Stable descending insertion by effect size (`list.sort(key=effect,
reverse=True)`; Python's sort is stable). -/
def insertDesc (x : String × ℚ) : List (String × ℚ) → List (String × ℚ)
  | [] => [x]
  | y :: ys => if y.2 ≤ x.2 then x :: y :: ys else y :: insertDesc x ys

/-- Sort feature/effect pairs by effect size, descending, stably. -/
def sortDesc : List (String × ℚ) → List (String × ℚ)
  | [] => []
  | x :: xs => insertDesc x (sortDesc xs)

/-- The surgical targets: features with `significant_bias` and
`effect_size > 0.5`, ordered by effect size descending. -/
def sigFeatures (diag : Diagnostics) : List (String × ℚ) :=
  sortDesc (diag.featureTests.filterMap (fun fs =>
    if fs.2.significantBias ∧ fs.2.effectSize > 1 / 2 then
      some (fs.1, fs.2.effectSize)
    else none))

/-- `_calculate_rebalancing_plan(df, feature)`: per category, the signed
adjustment delta (negative = remove, positive = add). -/
def calculateRebalancingPlan (df : Dataset) (f : String) : List (Val × ℤ) :=
  let e : ℚ := 1 / (numCats df f : ℚ)
  (cats df f).map (fun g =>
    let p := prop df f g
    let gs := cnt df f g
    let dev := p - e
    if dev > 0 then
      (g, -(⌊(gs : ℚ) * (dev / p) * (7 / 10)⌋))
    else if dev < 0 then
      (g, ⌊(gs : ℚ) * ((-dev) / e) * (8 / 10)⌋)
    else (g, 0))

/-- The removal requests of a set of plans: for each delta `d < 0` on
`(feature, category)`, sample `min(|d|, categorySize)` rows (sizes taken
against the pre-removal dataset), skipping zero requests. -/
def removalEntries (df : Dataset) (plans : List (String × List (Val × ℤ))) :
    List ((String × Val) × ℕ) :=
  (plans.map (fun fp => fp.2.filterMap (fun gc =>
    if gc.2 < 0 then
      let n := min gc.2.natAbs (cnt df fp.1 gc.1)
      if n > 0 then some ((fp.1, gc.1), n) else none
    else none))).flatten

/-- Union of the sampled removal index sets (`removal_indices`); overlapping
selections deduplicate on row identity, as in `set.update` / `df.drop`. -/
def removalUnionA (sample : String → Val → ℕ → Finset ℕ)
    (entries : List ((String × Val) × ℕ)) : Finset ℕ :=
  entries.foldl (fun U e => U ∪ sample e.1.1 e.1.2 e.2) ∅

/-- The addition phase: for each delta `d > 0`, `min(d, 1000)` rows drawn
with replacement from the post-removal group (skipped when the group became
empty).  `addRows` abstracts `DataFrame.sample(n, replace=True)`. -/
def additionsA (df' : Dataset) (plans : List (String × List (Val × ℤ)))
    (addRows : String → Val → ℕ → List Row) : List Row :=
  (plans.map (fun fp => (fp.2.map (fun gc =>
    if gc.2 > 0 then
      let n := min gc.2.toNat 1000
      if n > 0 ∧ cnt df' fp.1 gc.1 > 0 then addRows fp.1 gc.1 n else []
    else [])).flatten)).flatten

/-- The executor part of `_evidence_based_rebalancing`: all removals first
(one combined deduplicated deletion), then all additions. -/
def executePlans (df : Dataset) (plans : List (String × List (Val × ℤ)))
    (sample : String → Val → ℕ → Finset ℕ)
    (addRows : String → Val → ℕ → List Row) : Dataset :=
  let U := removalUnionA sample (removalEntries df plans)
  let df' := afterRemoval df U
  df' ++ additionsA df' plans addRows

/-- `_evidence_based_rebalancing(df, diagnostic_results)`: returns `df`
unchanged when there are no surgical targets, otherwise plans every selected
feature against the original dataset and executes removals then additions. -/
def evidenceBasedRebalancing (df : Dataset) (diag : Diagnostics)
    (sample : String → Val → ℕ → Finset ℕ)
    (addRows : String → Val → ℕ → List Row) : Dataset :=
  let sf := sigFeatures diag
  if sf.isEmpty then df
  else
    executePlans df (sf.map (fun fe => (fe.1, calculateRebalancingPlan df fe.1)))
      sample addRows

/-! ## Policy B: `_industry_smote_rebalancing` (budget-constrained) -/

/-- `int(len(df) * max_data_loss)`: the total removal budget. -/
def budgetOf (df : Dataset) (maxDataLoss : ℚ) : ℕ :=
  (⌊(df.length : ℚ) * maxDataLoss⌋).toNat

/-- The `removal_plan`: for each significant feature with effect size `> 0.5`
and each category with proportion `> 1.2 × expected`, propose
`min(int(categorySize × excessRatio × 0.3), int(budget × 0.5))` removals,
keeping only positive proposals. -/
def industryRemovalPlan (df : Dataset) (diag : Diagnostics) (budget : ℕ) :
    List ((String × Val) × ℕ) :=
  (diag.featureTests.map (fun fs =>
    if fs.2.significantBias ∧ fs.2.effectSize > 1 / 2 then
      let e : ℚ := 1 / (numCats df fs.1 : ℚ)
      (cats df fs.1).filterMap (fun g =>
        let p := prop df fs.1 g
        if p > e * (6 / 5) then
          let excess := (p - e) / p
          let n := min (⌊(cnt df fs.1 g : ℚ) * excess * (3 / 10)⌋).toNat (budget / 2)
          if n > 0 then some ((fs.1, g), n) else none
        else none)
    else [])).flatten

/-- The budget-consuming removal loop: a proposal is executed only when it
fits in the remaining budget AND the category holds strictly more rows than
the proposal; otherwise it is skipped wholesale.  Returns the accumulated
removal index set, the consumed budget, and the executed proposals. -/
def stepB (df : Dataset) (budget : ℕ) (sample : String → Val → ℕ → Finset ℕ)
    (st : Finset ℕ × ℕ × List ((String × Val) × ℕ))
    (e : (String × Val) × ℕ) : Finset ℕ × ℕ × List ((String × Val) × ℕ) :=
  if st.2.1 + e.2 ≤ budget ∧ e.2 < cnt df e.1.1 e.1.2 then
    (st.1 ∪ sample e.1.1 e.1.2 e.2, st.2.1 + e.2, st.2.2 ++ [e])
  else st

def execRemovalsB (df : Dataset) (budget : ℕ)
    (sample : String → Val → ℕ → Finset ℕ)
    (plan : List ((String × Val) × ℕ)) :
    Finset ℕ × ℕ × List ((String × Val) × ℕ) :=
  plan.foldl (stepB df budget sample) (∅, 0, [])

/-- Columns of numeric dtype: present somewhere and never holding a string. -/
def isNumCol (df : Dataset) (c : String) : Bool :=
  df.any (fun r => (getVal r c).isSome) &&
    df.all (fun r => match getVal r c with
      | some (Val.str _) => false
      | _ => true)

/-- All column names of the frame, in first-occurrence order. -/
def colNames (df : Dataset) : List String :=
  ((df.map (fun r => r.map Prod.fst)).flatten).dedup

/-- `select_dtypes(include=[np.number])` minus the protected (weighted)
columns: the columns that receive jitter. -/
def effNumCols (df : Dataset) (protectedCols : List String) : List String :=
  ((colNames df).filter (fun c => isNumCol df c)).filter
    (fun c => decide (c ∉ protectedCols))

/-- The new value of one cell of a duplicated record: numeric cells of
jitter columns are multiplied by `1 + δ c`, everything else is copied. -/
def tweakVal (ncols : List String) (δ : String → ℚ) (c : String) (v : Val) : Val :=
  if c ∈ ncols then
    match v with
    | Val.num q => Val.num (q * (1 + δ c))
    | v => v
  else v

/-- Duplicate one record, multiplying every jitter column by `1 + δ c` and
copying every other cell exactly. -/
def perturbRow (ncols : List String) (δ : String → ℚ) (r : Row) : Row :=
  r.map (fun cv => (cv.1, tweakVal ncols δ cv.1 cv.2))

/-- `df_rebalanced[df_rebalanced[f] == g]`. -/
def groupData (df : Dataset) (f : String) (g : Val) : Dataset :=
  df.filter (fun r => decide (getVal r f = some g))

/-- `n_needed = int(len(df') * expected * deficit_ratio * 0.8)` for a
category of a post-removal dataset. -/
def nNeededB (df' : Dataset) (f : String) (g : Val) : ℕ :=
  let e : ℚ := 1 / (numCats df' f : ℚ)
  let p := prop df' f g
  (⌊(df'.length : ℚ) * e * ((e - p) / e) * (4 / 5)⌋).toNat

/-- The synthetic rows added for one under-represented category: only when
the proportion is below `0.8 × expected` and `n_needed > 2`; groups with at
least 2 rows get `min(n_needed, 3 × categorySize)` duplicates built by
cycling through the group's rows, a single-row group gets up to 10
duplicates of its one row.  `δ i c` is the jitter factor drawn for sample
`i`, column `c` (uniform in ±5%, resp. ±10%, at runtime). -/
def groupAdditions (df' : Dataset) (protectedCols : List String) (f : String)
    (g : Val) (δ : ℕ → String → ℚ) : List Row :=
  let e : ℚ := 1 / (numCats df' f : ℚ)
  let p := prop df' f g
  if p < e * (4 / 5) then
    let nNeeded := nNeededB df' f g
    if nNeeded > 2 then
      let gd := groupData df' f g
      if 2 ≤ gd.length then
        let nAdd := min nNeeded (gd.length * 3)
        if nAdd > 0 then
          (List.range nAdd).map (fun i =>
            perturbRow (effNumCols df' protectedCols) (δ i) (gd.getD (i % gd.length) []))
        else []
      else if gd.length = 1 then
        (List.range (min nNeeded 10)).map (fun i =>
          perturbRow (effNumCols df' protectedCols) (δ i) (gd.getD 0 []))
      else []
    else []
  else []

/-- The whole oversampling phase: every significant feature still present in
the post-removal frame, every under-represented category. -/
def smoteAdditions (df' : Dataset) (diag : Diagnostics)
    (protectedCols : List String) (noise : String → Val → ℕ → String → ℚ) :
    List Row :=
  (diag.featureTests.map (fun fs =>
    if fs.2.significantBias ∧ hasCol df' fs.1 then
      ((cats df' fs.1).map (fun g =>
        groupAdditions df' protectedCols fs.1 g (noise fs.1 g))).flatten
    else [])).flatten

/-- `_industry_smote_rebalancing(df, diagnostic_results, max_data_loss)`:
budget-limited removals followed by capped synthetic duplication. -/
def industrySmoteRebalancing (df : Dataset) (diag : Diagnostics)
    (maxDataLoss : ℚ) (protectedCols : List String)
    (sample : String → Val → ℕ → Finset ℕ)
    (noise : String → Val → ℕ → String → ℚ) : Dataset :=
  let budget := budgetOf df maxDataLoss
  let st := execRemovalsB df budget sample (industryRemovalPlan df diag budget)
  let df' := afterRemoval df st.1
  df' ++ smoteAdditions df' diag protectedCols noise

/-! ## Validator (`validate_industry_readiness`) -/

/-- Proportion vector of a column (`value_counts(normalize=True).values`). -/
def distVec (df : Dataset) (f : String) : List ℚ :=
  (cats df f).map (fun g => prop df f g)

/-- `np.full_like(dist, 1/len(dist))`. -/
def uniformVec (k : ℕ) : List ℚ :=
  List.replicate k (1 / (k : ℚ))

/-- `((w_before - w_after) / w_before) * 100 if w_before > 0 else 0`. -/
def wImprovement (wb wa : ℚ) : ℚ :=
  if wb > 0 then (wb - wa) / wb * 100 else 0

/-- `np.mean(l) > t`, with numpy's convention that the mean of an empty list
is NaN and `NaN > t` is false. -/
def meanGT (l : List ℚ) (t : ℚ) : Bool :=
  if l.isEmpty then false else decide (l.sum / (l.length : ℚ) > t)

/-- The `ValidationReport` of `validate_industry_readiness`. -/
structure Validation where
  fairnessImprovement : List (String × ℚ)
  retentionRate : ℚ
  dataLossPercent : ℚ
  recordsBefore : ℕ
  recordsAfter : ℕ
  meetsDataRetention : Bool
  meaningfulFairnessGain : Bool
  productionReady : Bool
deriving DecidableEq, Repr

/-- `validate_industry_readiness(before, after, diagnostic_results)`.
`wdist` abstracts scipy's `wasserstein_distance` (an external library
function); both distances are taken against a uniform vector sized from the
*before* distribution, as in the code. -/
def validateIndustryReadiness (wdist : List ℚ → List ℚ → ℚ)
    (before after : Dataset) (diag : Diagnostics) : Validation :=
  let improvements := (diag.featureTests.filter
      (fun fs => fs.2.significantBias)).map (fun fs =>
    let bd := distVec before fs.1
    let ad := distVec after fs.1
    let expected := uniformVec bd.length
    (fs.1, wImprovement (wdist bd expected) (wdist ad expected)))
  let retention : ℚ := (after.length : ℚ) / (before.length : ℚ) * 100
  let meets := decide (retention ≥ 92)
  let meaningful := meanGT (improvements.map Prod.snd) 15
  { fairnessImprovement := improvements
    retentionRate := retention
    dataLossPercent := 100 - retention
    recordsBefore := before.length
    recordsAfter := after.length
    meetsDataRetention := meets
    meaningfulFairnessGain := meaningful
    productionReady := meets && meaningful }

/-! ## `transform` (the planning/mitigation entry point) -/

/-- The error kinds of the external interface. -/
inductive BCError where
  | invalidDomain
  | notFitted
  | missingDiagnosis
deriving DecidableEq, Repr

/-- `BiasClean.transform(df, mode, diagnostic_results)`: `ValueError` when no
domain was fitted, `ValueError` (`MissingDiagnosis`) when no diagnosis is
supplied, otherwise dispatch on the mode to one of the two rebalancers with
the supplied diagnosis — diagnosis is never recomputed. -/
def transform (domainWeights : Option (List (String × ℚ))) (df : Dataset)
    (mode : String) (diagQ : Option Diagnostics)
    (sampleA : String → Val → ℕ → Finset ℕ)
    (addRowsA : String → Val → ℕ → List Row)
    (sampleB : String → Val → ℕ → Finset ℕ)
    (noiseB : String → Val → ℕ → String → ℚ) : Except BCError Dataset :=
  match domainWeights with
  | none => .error .notFitted
  | some w =>
    match diagQ with
    | none => .error .missingDiagnosis
    | some diag =>
      .ok (if mode = "industry" then
            industrySmoteRebalancing df diag (8 / 100) (w.map Prod.fst) sampleB noiseB
          else
            evidenceBasedRebalancing df diag sampleA addRowsA)

/-! ## Concrete scenario data -/

/-- Category value `"A"` of the spec's test scenario. -/
def vA : Val := Val.str "A"

/-- Category value `"B"` of the spec's test scenario. -/
def vB : Val := Val.str "B"

/-- Category value `"C"` of the spec's test scenario. -/
def vC : Val := Val.str "C"

/-- The scenario dataset: feature "Group" with counts A:800, B:100, C:100. -/
def df1000 : Dataset :=
  block "Group" vA 800 ++ (block "Group" vB 100 ++ block "Group" vC 100)

/-- A weight map carrying the single feature "Group". -/
def wG : List (String × ℚ) := [("Group", 1)]

/-- A p-value backend that always reports 0 (every bias maximally
significant); stands in for scipy where concrete evaluation is needed. -/
def sfZero : ℚ → ℕ → ℚ := fun _ _ => 0

/-- The diagnosis of `df1000` as the engine computes it: chi-square 980,
significant, effect size 0.98. -/
def diagScenario : Diagnostics :=
  ⟨[("Group", ⟨980, 0, true, 49 / 50⟩)], 1000⟩

/-- Category value `"a"` of the validator scenario. -/
def va2 : Val := Val.str "a"

/-- Category value `"b"` of the validator scenario. -/
def vb2 : Val := Val.str "b"

/-- Validator scenario: 1000 records before mitigation. -/
def before1000 : Dataset := block "G" va2 500 ++ block "G" vb2 500

/-- Validator scenario: 950 records after mitigation. -/
def after950 : Dataset := block "G" va2 570 ++ block "G" vb2 380

/-- A diagnosis with the single significant feature "G". -/
def diagG : Diagnostics := ⟨[("G", ⟨100, 0, true, 1 / 10⟩)], 1000⟩

/-- A Wasserstein-distance stand-in making the validator scenario's mean
improvement exactly 20%. -/
def wdC2 : List ℚ → List ℚ → ℚ :=
  fun v _ => if v = [(3 : ℚ) / 5, 2 / 5] then 4 / 5 else 1

/-- A record of the majority group of the oversampling scenario. -/
def rowX : Row := [("G", Val.str "x"), ("Income", Val.num 50)]

/-- A record of the minority group of the oversampling scenario. -/
def rowY : Row := [("G", Val.str "y"), ("Income", Val.num 100)]

/-- Post-removal dataset for the oversampling scenario: 16 x / 4 y rows with
a numeric Income column. -/
def df20 : Dataset := List.replicate 16 rowX ++ List.replicate 4 rowY

/-- Post-removal dataset with an under-represented category whose
`n_needed` lands exactly at 2: 8 x / 2 y. -/
def df10 : Dataset :=
  block "G" (Val.str "x") 8 ++ block "G" (Val.str "y") 2

/-- A 40-record dataset (36 x / 4 y) whose feature "G" genuinely carries a
large bias (chi-square 25.6, effect 0.64). -/
def df40 : Dataset :=
  block "G" (Val.str "x") 36 ++ block "G" (Val.str "y") 4

/-- The diagnosis of `df40`. -/
def diag40 : Diagnostics := ⟨[("G", ⟨128 / 5, 0, true, 16 / 25⟩)], 40⟩

/-- A 4-record dataset (3 x / 1 y) for the executor witness. -/
def df4 : Dataset :=
  block "G" (Val.str "x") 3 ++ block "G" (Val.str "y") 1

/-- A 2-record dataset for the no-op witness. -/
def df2 : Dataset :=
  block "G" (Val.str "x") 1 ++ block "G" (Val.str "y") 1

/-- A diagnosis with no significant feature. -/
def diagNS : Diagnostics := ⟨[("G", ⟨1, 1, false, 1⟩)], 2⟩

section BasicLemmas

theorem length_idxAux (P : Row → Bool) : ∀ (l : Dataset) (i : ℕ),
    (idxAux P i l).length = (l.filter P).length := by
  intro l
  induction l with
  | nil => intro i; rfl
  | cons r rs ih =>
      intro i
      by_cases h : P r <;> simp [idxAux, List.filter_cons, h, ih]

theorem mem_idxAux_bounds (P : Row → Bool) : ∀ (l : Dataset) (i j : ℕ),
    j ∈ idxAux P i l → i ≤ j ∧ j < i + l.length := by
  intro l
  induction l with
  | nil => intro i j h; simp [idxAux] at h
  | cons r rs ih =>
      intro i j h
      by_cases hP : P r
      · simp only [idxAux, if_pos hP, List.mem_cons] at h
        rcases h with rfl | h
        · simp
        · have := ih (i + 1) j h
          constructor <;> [omega; (simp only [List.length_cons]; omega)]
      · simp only [idxAux, if_neg hP] at h
        have := ih (i + 1) j h
        constructor <;> [omega; (simp only [List.length_cons]; omega)]

theorem nodup_idxAux (P : Row → Bool) : ∀ (l : Dataset) (i : ℕ),
    (idxAux P i l).Nodup := by
  intro l
  induction l with
  | nil => intro i; simp [idxAux]
  | cons r rs ih =>
      intro i
      by_cases hP : P r
      · simp only [idxAux, if_pos hP, List.nodup_cons]
        refine ⟨fun hmem => ?_, ih (i + 1)⟩
        have := mem_idxAux_bounds P rs (i + 1) i hmem
        omega
      · simp only [idxAux, if_neg hP]
        exact ih (i + 1)

theorem length_groupIdx (df : Dataset) (f : String) (g : Val) :
    (groupIdx df f g).length = cnt df f g :=
  length_idxAux _ df 0

theorem nodup_groupIdx (df : Dataset) (f : String) (g : Val) :
    (groupIdx df f g).Nodup :=
  nodup_idxAux _ df 0

theorem mem_groupIdx_lt (df : Dataset) (f : String) (g : Val) (j : ℕ)
    (h : j ∈ groupIdx df f g) : j < df.length := by
  have := mem_idxAux_bounds _ df 0 j h
  omega

/-- The canonical sampler draws exactly `n` distinct indices from the group
whenever the group is large enough, and only indices of the group. -/
theorem canonicalSample_spec (df : Dataset) (f : String) (g : Val) (n : ℕ)
    (h : n ≤ cnt df f g) :
    (canonicalSample df f g n).card = n ∧
      canonicalSample df f g n ⊆ (groupIdx df f g).toFinset := by
  have hnd : ((groupIdx df f g).take n).Nodup :=
    (nodup_groupIdx df f g).sublist (List.take_sublist n _)
  constructor
  · rw [canonicalSample, List.toFinset_card_of_nodup hnd, List.length_take,
      length_groupIdx]
    omega
  · intro x hx
    rw [canonicalSample, List.mem_toFinset] at hx
    rw [List.mem_toFinset]
    exact (List.take_sublist n _).subset hx

theorem canonicalSample_card (df : Dataset) (f : String) (g : Val) (n : ℕ)
    (h : n ≤ cnt df f g) : (canonicalSample df f g n).card = n :=
  (canonicalSample_spec df f g n h).1

theorem cnt_cons (r : Row) (l : Dataset) (f : String) (g : Val) :
    cnt (r :: l) f g = (if getVal r f = some g then 1 else 0) + cnt l f g := by
  by_cases h : getVal r f = some g <;>
    simp [cnt, List.filter_cons, h, Nat.add_comm]

/-- Dropping rows by index removes exactly the in-range members of `U`. -/
theorem length_dropIdxAux (U : Finset ℕ) : ∀ (l : Dataset) (i : ℕ),
    (dropIdxAux U i l).length + (U.filter (fun j => i ≤ j ∧ j < i + l.length)).card
      = l.length := by
  intro l
  induction l with
  | nil =>
      intro i
      have hfil : U.filter (fun j => i ≤ j ∧ j < i + ([] : Dataset).length) = ∅ := by
        apply Finset.filter_eq_empty_iff.mpr
        intro j _
        simp only [List.length_nil, Nat.add_zero]
        omega
      rw [hfil]
      simp [dropIdxAux]
  | cons r rs ih =>
      intro i
      simp only [List.length_cons]
      by_cases h : i ∈ U
      · have hset : U.filter (fun j => i ≤ j ∧ j < i + (rs.length + 1))
            = insert i (U.filter (fun j => i + 1 ≤ j ∧ j < (i + 1) + rs.length)) := by
          ext j
          simp only [Finset.mem_filter, Finset.mem_insert]
          constructor
          · rintro ⟨hj, hlo, hhi⟩
            by_cases hji : j = i
            · exact Or.inl hji
            · exact Or.inr ⟨hj, by omega, by omega⟩
          · rintro (rfl | ⟨hj, hlo, hhi⟩)
            · exact ⟨h, le_refl _, by omega⟩
            · exact ⟨hj, by omega, by omega⟩
        have hnotmem : i ∉ U.filter (fun j => i + 1 ≤ j ∧ j < (i + 1) + rs.length) := by
          simp only [Finset.mem_filter]
          rintro ⟨-, hlo, -⟩
          omega
        rw [dropIdxAux, if_pos h, hset, Finset.card_insert_of_not_mem hnotmem]
        have := ih (i + 1)
        omega
      · have hset : U.filter (fun j => i ≤ j ∧ j < i + (rs.length + 1))
            = U.filter (fun j => i + 1 ≤ j ∧ j < (i + 1) + rs.length) := by
          ext j
          simp only [Finset.mem_filter]
          constructor
          · rintro ⟨hj, hlo, hhi⟩
            have hji : j ≠ i := fun hji => h (hji ▸ hj)
            exact ⟨hj, by omega, by omega⟩
          · rintro ⟨hj, hlo, hhi⟩
            exact ⟨hj, by omega, by omega⟩
        rw [dropIdxAux, if_neg h, List.length_cons, hset]
        have := ih (i + 1)
        omega

/-- Size after `df.drop(U)` when every removed index is a real row index. -/
theorem length_afterRemoval_of_subset (df : Dataset) (U : Finset ℕ)
    (h : ∀ j ∈ U, j < df.length) :
    (afterRemoval df U).length + U.card = df.length := by
  have hall := length_dropIdxAux U df 0
  have hfil : U.filter (fun j => 0 ≤ j ∧ j < 0 + df.length) = U := by
    ext j
    simp only [Finset.mem_filter, and_iff_left_iff_imp]
    intro hj
    exact ⟨Nat.zero_le j, by have := h j hj; omega⟩
  rw [hfil] at hall
  show (dropIdxAux U 0 df).length + U.card = df.length
  omega

/-- Size after `df.drop(U)` is always at least `|df| − |U|`. -/
theorem length_afterRemoval_ge (df : Dataset) (U : Finset ℕ) :
    df.length ≤ (afterRemoval df U).length + U.card := by
  have hall := length_dropIdxAux U df 0
  have hle : (U.filter (fun j => 0 ≤ j ∧ j < 0 + df.length)).card ≤ U.card :=
    Finset.card_filter_le _ _
  show df.length ≤ (dropIdxAux U 0 df).length + U.card
  omega

/-- Dropping indices that all avoid group `(f, g)` leaves the count of
`(f, g)` unchanged. -/
theorem cnt_dropIdxAux (U : Finset ℕ) (f : String) (g : Val) :
    ∀ (l : Dataset) (i : ℕ),
    (∀ j ∈ U, j ∉ idxAux (fun r => decide (getVal r f = some g)) i l) →
    cnt (dropIdxAux U i l) f g = cnt l f g := by
  intro l
  induction l with
  | nil => intro i _; rfl
  | cons r rs ih =>
      intro i h
      by_cases hiU : i ∈ U
      · have hP : ¬ (getVal r f = some g) := by
          intro hP
          have hmem := h i hiU
          simp [idxAux, hP] at hmem
        have hrest : ∀ j ∈ U, j ∉ idxAux (fun r => decide (getVal r f = some g)) (i + 1) rs := by
          intro j hj
          have hmem := h j hj
          simpa [idxAux, hP] using hmem
        rw [dropIdxAux, if_pos hiU, ih (i + 1) hrest, cnt_cons, if_neg hP]
        omega
      · have hrest : ∀ j ∈ U, j ∉ idxAux (fun r => decide (getVal r f = some g)) (i + 1) rs := by
          intro j hj
          have hmem := h j hj
          by_cases hP : getVal r f = some g
          · simp only [idxAux, hP] at hmem
            simp only [decide_True, if_true, List.mem_cons] at hmem
            exact fun hmem2 => hmem (Or.inr hmem2)
          · simpa [idxAux, hP] using hmem
        rw [dropIdxAux, if_neg hiU, cnt_cons, cnt_cons, ih (i + 1) hrest]

/-- An index cannot lie in two distinct groups of the same feature. -/
theorem idxAux_groups_disjoint (f : String) (g g₀ : Val) (hne : g ≠ g₀) :
    ∀ (l : Dataset) (i j : ℕ),
    j ∈ idxAux (fun r => decide (getVal r f = some g₀)) i l →
    j ∉ idxAux (fun r => decide (getVal r f = some g)) i l := by
  intro l
  induction l with
  | nil => intro i j h; simp [idxAux] at h
  | cons r rs ih =>
      intro i j h0 hg
      by_cases hPg : getVal r f = some g <;> by_cases hPg0 : getVal r f = some g₀
      · exact hne (Option.some.inj (hPg ▸ hPg0))
      · simp only [idxAux] at h0 hg
        rw [if_neg (by simp [hPg0])] at h0
        rw [if_pos (by simp [hPg])] at hg
        rcases List.mem_cons.mp hg with rfl | hg
        · have := mem_idxAux_bounds _ rs (j + 1) j h0
          omega
        · exact ih (i + 1) j h0 hg
      · simp only [idxAux] at h0 hg
        rw [if_pos (by simp [hPg0])] at h0
        rw [if_neg (by simp [hPg])] at hg
        rcases List.mem_cons.mp h0 with rfl | h0
        · have := mem_idxAux_bounds _ rs (j + 1) j hg
          omega
        · exact ih (i + 1) j h0 hg
      · simp only [idxAux] at h0 hg
        rw [if_neg (by simp [hPg0])] at h0
        rw [if_neg (by simp [hPg])] at hg
        exact ih (i + 1) j h0 hg

theorem dropIdxAux_empty : ∀ (l : Dataset) (i : ℕ),
    dropIdxAux (∅ : Finset ℕ) i l = l := by
  intro l
  induction l with
  | nil => intro i; rfl
  | cons r rs ih => intro i; simp [dropIdxAux, ih]

theorem afterRemoval_empty (df : Dataset) : afterRemoval df (∅ : Finset ℕ) = df :=
  dropIdxAux_empty df 0

/-- If the removed indices all belong to group `(f, g₀)` and `g ≠ g₀` then the
count of `(f, g)` is preserved by the removal. -/
theorem cnt_afterRemoval_other (df : Dataset) (U : Finset ℕ) (f : String)
    (g₀ g : Val) (hsub : U ⊆ (groupIdx df f g₀).toFinset) (hne : g ≠ g₀) :
    cnt (afterRemoval df U) f g = cnt df f g := by
  apply cnt_dropIdxAux
  intro j hj
  have hj0 : j ∈ groupIdx df f g₀ := by
    have := hsub hj
    rwa [List.mem_toFinset] at this
  exact idxAux_groups_disjoint f g g₀ hne df 0 j hj0

end BasicLemmas

/-! ## Generic helper lemmas -/

theorem flatten_nil_of_all {α : Type} (L : List (List α)) (h : ∀ l ∈ L, l = []) :
    L.flatten = [] := by
  induction L with
  | nil => rfl
  | cons x xs ih =>
      rw [List.flatten_cons, h x (List.mem_cons_self x xs),
        ih (fun l hl => h l (List.mem_cons_of_mem x hl))]
      rfl

theorem filterMap_nil_of_all {α β : Type} (f : α → Option β) (l : List α)
    (h : ∀ a ∈ l, f a = none) : l.filterMap f = [] := by
  induction l with
  | nil => rfl
  | cons x xs ih =>
      rw [List.filterMap_cons, h x (List.mem_cons_self x xs)]
      exact ih (fun a ha => h a (List.mem_cons_of_mem x ha))

theorem colVals_append (d₁ d₂ : Dataset) (f : String) :
    colVals (d₁ ++ d₂) f = colVals d₁ f ++ colVals d₂ f := by
  simp [colVals, List.filterMap_append]

theorem getVal_single (f : String) (v : Val) : getVal [(f, v)] f = some v := by
  simp [getVal, List.lookup]

theorem colVals_block (f : String) (v : Val) (n : ℕ) :
    colVals (block f v n) f = List.replicate n v := by
  induction n with
  | zero => rfl
  | succ k ih =>
      rw [block, List.replicate_succ, colVals, List.filterMap_cons, getVal_single,
        List.replicate_succ]
      show v :: colVals (block f v k) f = v :: List.replicate k v
      exact congrArg (v :: ·) ih

theorem cnt_append (d₁ d₂ : Dataset) (f : String) (g : Val) :
    cnt (d₁ ++ d₂) f g = cnt d₁ f g + cnt d₂ f g := by
  simp [cnt, List.filter_append]

theorem cnt_block (f : String) (v : Val) (n : ℕ) (w : Val) :
    cnt (block f v n) f w = if v = w then n else 0 := by
  induction n with
  | zero => simp [block, cnt]
  | succ k ih =>
      rw [block, List.replicate_succ, cnt_cons, getVal_single]
      have hfold : cnt (List.replicate k [(f, v)]) f w = cnt (block f v k) f w := rfl
      by_cases h : v = w
      · rw [if_pos (congrArg some h), hfold, ih, if_pos h, if_pos h]
        omega
      · rw [if_neg (fun hc => h (Option.some.inj hc)), hfold, ih, if_neg h, if_neg h]

theorem hasCol_block_left (f : String) (v : Val) (n : ℕ) (rest : Dataset)
    (hn : n ≠ 0) : hasCol (block f v n ++ rest) f = true := by
  obtain ⟨k, rfl⟩ := Nat.exists_eq_succ_of_ne_zero hn
  simp [hasCol, block, List.replicate_succ, getVal_single]

theorem dedup_replicate_succ {α : Type} [DecidableEq α] (a : α) :
    ∀ k : ℕ, (List.replicate (k + 1) a).dedup = [a] := by
  intro k
  induction k with
  | zero => simp
  | succ m ih =>
      rw [List.replicate_succ, List.dedup_cons_of_mem
        (List.mem_replicate.mpr ⟨Nat.succ_ne_zero m, rfl⟩)]
      exact ih

theorem dedup_replicate_of_ne_zero {α : Type} [DecidableEq α] (a : α) (n : ℕ)
    (hn : n ≠ 0) : (List.replicate n a).dedup = [a] := by
  obtain ⟨k, rfl⟩ := Nat.exists_eq_succ_of_ne_zero hn
  exact dedup_replicate_succ a k

theorem union_replicate_succ {α : Type} [DecidableEq α] (a : α) (l : List α) :
    ∀ k : ℕ, List.replicate (k + 1) a ∪ l = l.insert a := by
  intro k
  induction k with
  | zero => simp [List.cons_union, List.nil_union]
  | succ m ih =>
      rw [List.replicate_succ, List.cons_union, ih]
      exact List.insert_of_mem (List.mem_insert_self a l)

theorem union_replicate_of_ne_zero {α : Type} [DecidableEq α] (a : α) (n : ℕ)
    (l : List α) (hn : n ≠ 0) : List.replicate n a ∪ l = l.insert a := by
  obtain ⟨k, rfl⟩ := Nat.exists_eq_succ_of_ne_zero hn
  exact union_replicate_succ a l k

/-- Categories of a three-block single-feature dataset. -/
theorem cats_three (f : String) (a b c : Val) (na nb nc : ℕ)
    (hna : na ≠ 0) (hnb : nb ≠ 0) (hnc : nc ≠ 0)
    (hab : a ≠ b) (hac : a ≠ c) (hbc : b ≠ c) :
    cats (block f a na ++ (block f b nb ++ block f c nc)) f = [a, b, c] := by
  rw [cats, colVals_append, colVals_append, colVals_block, colVals_block,
    colVals_block, List.dedup_append, List.dedup_append,
    dedup_replicate_of_ne_zero c nc hnc,
    union_replicate_of_ne_zero b nb [c] hnb,
    List.insert_of_not_mem (by simp [hbc]),
    union_replicate_of_ne_zero a na [b, c] hna,
    List.insert_of_not_mem (by simp [hab, hac])]

/-- Categories of a two-block single-feature dataset. -/
theorem cats_two (f : String) (a b : Val) (na nb : ℕ)
    (hna : na ≠ 0) (hnb : nb ≠ 0) (hab : a ≠ b) :
    cats (block f a na ++ block f b nb) f = [a, b] := by
  rw [cats, colVals_append, colVals_block, colVals_block, List.dedup_append,
    dedup_replicate_of_ne_zero b nb hnb,
    union_replicate_of_ne_zero a na [b] hna,
    List.insert_of_not_mem (by simp [hab])]

/-! ## Claim theorems: transform / validator -/

/-- Claim C8: for every dataset, calling `transform` (the planning step) with
a fitted domain but without a supplied diagnosis fails with the
missing-diagnosis error; when a diagnosis is supplied, the result is exactly
the selected policy applied to that diagnosis as given — the planner never
re-runs diagnosis under either policy. -/
theorem transform_requires_diagnosis (w : List (String × ℚ)) (df : Dataset)
    (mode : String) (sampleA : String → Val → ℕ → Finset ℕ)
    (addRowsA : String → Val → ℕ → List Row)
    (sampleB : String → Val → ℕ → Finset ℕ)
    (noiseB : String → Val → ℕ → String → ℚ) :
    transform (some w) df mode none sampleA addRowsA sampleB noiseB
        = .error .missingDiagnosis ∧
    ∀ diag : Diagnostics,
      transform (some w) df mode (some diag) sampleA addRowsA sampleB noiseB
        = .ok (if mode = "industry" then
              industrySmoteRebalancing df diag (8 / 100) (w.map Prod.fst) sampleB noiseB
            else
              evidenceBasedRebalancing df diag sampleA addRowsA) :=
  ⟨rfl, fun _ => rfl⟩

/-- Claim C2: `validate_industry_readiness` returns
`retentionRate = 100 × |after| / |before|`, `dataLossPct = 100 − retentionRate`,
`meetsRetention = (retentionRate ≥ 92)`, `meaningfulGain` = (mean of the
per-significant-feature Wasserstein improvements > 15, false on an empty
set), and `productionReady = meetsRetention AND meaningfulGain`. -/
theorem validateIndustryReadiness_spec (wdist : List ℚ → List ℚ → ℚ)
    (before after : Dataset) (diag : Diagnostics) :
    (validateIndustryReadiness wdist before after diag).retentionRate
        = 100 * (after.length : ℚ) / (before.length : ℚ) ∧
    (validateIndustryReadiness wdist before after diag).dataLossPercent
        = 100 - (validateIndustryReadiness wdist before after diag).retentionRate ∧
    ((validateIndustryReadiness wdist before after diag).meetsDataRetention = true ↔
        (validateIndustryReadiness wdist before after diag).retentionRate ≥ 92) ∧
    ((validateIndustryReadiness wdist before after diag).fairnessImprovement ≠ [] →
      ((validateIndustryReadiness wdist before after diag).meaningfulFairnessGain = true ↔
        ((validateIndustryReadiness wdist before after diag).fairnessImprovement.map
            Prod.snd).sum
          / (((validateIndustryReadiness wdist before after diag).fairnessImprovement.map
            Prod.snd).length : ℚ) > 15)) ∧
    ((validateIndustryReadiness wdist before after diag).productionReady
        = ((validateIndustryReadiness wdist before after diag).meetsDataRetention
            && (validateIndustryReadiness wdist before after diag).meaningfulFairnessGain)) := by
  refine ⟨?_, rfl, ?_, ?_, rfl⟩
  · show (after.length : ℚ) / (before.length : ℚ) * 100
        = 100 * (after.length : ℚ) / (before.length : ℚ)
    ring
  · show decide ((after.length : ℚ) / (before.length : ℚ) * 100 ≥ 92) = true ↔ _
    simp [validateIndustryReadiness]
  · intro hne
    have hrfl : (validateIndustryReadiness wdist before after diag).meaningfulFairnessGain
        = meanGT ((validateIndustryReadiness wdist before after diag).fairnessImprovement.map
            Prod.snd) 15 := rfl
    rw [hrfl, meanGT,
      if_neg (by simp only [List.isEmpty_eq_true, List.map_eq_nil_iff]; exact hne)]
    simp

/-- Claim C9: if the supplied diagnosis marks no feature significant, the
per-feature improvement list is empty, so `meaningfulGain` (numpy's
`mean([]) > 15`, i.e. `NaN > 15`) is false and `productionReady` is false
regardless of the retention rate. -/
theorem productionReady_requires_significant (wdist : List ℚ → List ℚ → ℚ)
    (before after : Dataset) (diag : Diagnostics)
    (h : ∀ fs ∈ diag.featureTests, fs.2.significantBias = false) :
    (validateIndustryReadiness wdist before after diag).fairnessImprovement = [] ∧
    (validateIndustryReadiness wdist before after diag).meaningfulFairnessGain = false ∧
    (validateIndustryReadiness wdist before after diag).productionReady = false := by
  have hfil : diag.featureTests.filter (fun fs => fs.2.significantBias) = [] := by
    rw [List.filter_eq_nil_iff]
    intro fs hfs
    simp [h fs hfs]
  refine ⟨?_, ?_, ?_⟩ <;>
    simp [validateIndustryReadiness, hfil, meanGT, Bool.and_false]

/-- Claim C7: when the diagnosis requires no mitigation (no significant
feature), both policies are complete no-ops: Policy A selects no surgical
target and returns the dataset unchanged, and Policy B's removal plan is
empty and its output equals the input record-for-record. -/
theorem noop_when_not_required (df : Dataset) (diag : Diagnostics)
    (sampleA : String → Val → ℕ → Finset ℕ)
    (addRowsA : String → Val → ℕ → List Row)
    (sampleB : String → Val → ℕ → Finset ℕ)
    (noiseB : String → Val → ℕ → String → ℚ)
    (m : ℚ) (protectedCols : List String) (budget : ℕ)
    (h : requiresMitigation diag = false) :
    sigFeatures diag = [] ∧
    evidenceBasedRebalancing df diag sampleA addRowsA = df ∧
    industryRemovalPlan df diag budget = [] ∧
    industrySmoteRebalancing df diag m protectedCols sampleB noiseB = df := by
  have hsig : ∀ fs ∈ diag.featureTests, fs.2.significantBias = false := by
    simp only [requiresMitigation, significantBiasCount, decide_eq_false_iff_not,
      Nat.not_lt, Nat.le_zero] at h
    intro fs hfs
    have := List.countP_eq_zero.mp h fs hfs
    simpa using this
  have hsf : sigFeatures diag = [] := by
    have hfm : diag.featureTests.filterMap (fun fs =>
        if fs.2.significantBias ∧ fs.2.effectSize > 1 / 2 then
          some (fs.1, fs.2.effectSize)
        else none) = [] := by
      apply filterMap_nil_of_all
      intro fs hfs
      rw [if_neg]
      rintro ⟨hb, -⟩
      rw [hsig fs hfs] at hb
      exact Bool.false_ne_true hb
    rw [sigFeatures, hfm]
    rfl
  have hplan : ∀ b : ℕ, industryRemovalPlan df diag b = [] := by
    intro b
    rw [industryRemovalPlan]
    apply flatten_nil_of_all
    intro l hl
    rw [List.mem_map] at hl
    obtain ⟨fs, hfs, rfl⟩ := hl
    rw [if_neg]
    rintro ⟨hb, -⟩
    rw [hsig fs hfs] at hb
    exact Bool.false_ne_true hb
  refine ⟨hsf, ?_, hplan budget, ?_⟩
  · rw [evidenceBasedRebalancing]
    simp [hsf]
  · have hexec : execRemovalsB df (budgetOf df m) sampleB
        (industryRemovalPlan df diag (budgetOf df m)) = (∅, 0, []) := by
      rw [hplan (budgetOf df m)]
      rfl
    have hadds : smoteAdditions df diag protectedCols noiseB = [] := by
      rw [smoteAdditions]
      apply flatten_nil_of_all
      intro l hl
      rw [List.mem_map] at hl
      obtain ⟨fs, hfs, rfl⟩ := hl
      rw [if_neg]
      rintro ⟨hb, -⟩
      rw [hsig fs hfs] at hb
      exact Bool.false_ne_true hb
    show afterRemoval df (execRemovalsB df (budgetOf df m) sampleB
          (industryRemovalPlan df diag (budgetOf df m))).1
        ++ smoteAdditions (afterRemoval df (execRemovalsB df (budgetOf df m) sampleB
          (industryRemovalPlan df diag (budgetOf df m))).1) diag protectedCols noiseB
      = df
    rw [hexec]
    show afterRemoval df (∅ : Finset ℕ)
        ++ smoteAdditions (afterRemoval df (∅ : Finset ℕ)) diag protectedCols noiseB = df
    rw [afterRemoval_empty, hadds, List.append_nil]

/-! ## Claim theorems: Policy B budget invariant and removal guard -/

/-- Fold invariant of the budget-consuming removal loop: the consumed budget
never exceeds the total budget, and the accumulated index set never holds
more indices than the consumed budget. -/
theorem execRemovalsB_aux (df : Dataset) (budget : ℕ)
    (sample : String → Val → ℕ → Finset ℕ)
    (hs : ∀ f g n, n ≤ cnt df f g → (sample f g n).card = n) :
    ∀ (plan : List ((String × Val) × ℕ))
      (st : Finset ℕ × ℕ × List ((String × Val) × ℕ)),
    st.2.1 ≤ budget → st.1.card ≤ st.2.1 →
    (plan.foldl (stepB df budget sample) st).2.1 ≤ budget ∧
      (plan.foldl (stepB df budget sample) st).1.card
        ≤ (plan.foldl (stepB df budget sample) st).2.1 := by
  intro plan
  induction plan with
  | nil => intro st h1 h2; exact ⟨h1, h2⟩
  | cons e rest ih =>
      intro st h1 h2
      rw [List.foldl_cons]
      by_cases hc : st.2.1 + e.2 ≤ budget ∧ e.2 < cnt df e.1.1 e.1.2
      · have hstep : stepB df budget sample st e
            = (st.1 ∪ sample e.1.1 e.1.2 e.2, st.2.1 + e.2, st.2.2 ++ [e]) := by
          rw [stepB, if_pos hc]
        rw [hstep]
        apply ih
        · exact hc.1
        · show (st.1 ∪ sample e.1.1 e.1.2 e.2).card ≤ st.2.1 + e.2
          have hcard : (sample e.1.1 e.1.2 e.2).card = e.2 :=
            hs _ _ _ (le_of_lt hc.2)
          calc (st.1 ∪ sample e.1.1 e.1.2 e.2).card
              ≤ st.1.card + (sample e.1.1 e.1.2 e.2).card := Finset.card_union_le _ _
            _ ≤ st.2.1 + e.2 := by rw [hcard]; omega
      · rw [show stepB df budget sample st e = st from by rw [stepB, if_neg hc]]
        exact ih st h1 h2

/-- Every executed proposal passed the strict category-size guard. -/
theorem execRemovalsB_executed_aux (df : Dataset) (budget : ℕ)
    (sample : String → Val → ℕ → Finset ℕ) :
    ∀ (plan : List ((String × Val) × ℕ))
      (st : Finset ℕ × ℕ × List ((String × Val) × ℕ)),
    (∀ e ∈ st.2.2, e.2 < cnt df e.1.1 e.1.2) →
    ∀ e ∈ (plan.foldl (stepB df budget sample) st).2.2,
      e.2 < cnt df e.1.1 e.1.2 := by
  intro plan
  induction plan with
  | nil => intro st h; exact h
  | cons e rest ih =>
      intro st h
      rw [List.foldl_cons]
      by_cases hc : st.2.1 + e.2 ≤ budget ∧ e.2 < cnt df e.1.1 e.1.2
      · rw [show stepB df budget sample st e
            = (st.1 ∪ sample e.1.1 e.1.2 e.2, st.2.1 + e.2, st.2.2 ++ [e]) from
            by rw [stepB, if_pos hc]]
        apply ih
        intro e' he'
        rw [List.mem_append] at he'
        rcases he' with he' | he'
        · exact h e' he'
        · rw [List.mem_singleton] at he'
          subst he'
          exact hc.2
      · rw [show stepB df budget sample st e = st from by rw [stepB, if_neg hc]]
        exact ih st h

/-- The removal budget `int(N × maxDataLoss)` is at most `N × maxDataLoss`. -/
theorem budgetOf_le (df : Dataset) (m : ℚ) (hm : 0 ≤ m) :
    (budgetOf df m : ℚ) ≤ (df.length : ℚ) * m := by
  rw [budgetOf]
  have h0 : (0 : ℚ) ≤ (df.length : ℚ) * m := mul_nonneg (Nat.cast_nonneg _) hm
  have hfl : (0 : ℤ) ≤ ⌊(df.length : ℚ) * m⌋ := Int.floor_nonneg.mpr h0
  have hcast : ((⌊(df.length : ℚ) * m⌋.toNat : ℕ) : ℚ)
      = ((⌊(df.length : ℚ) * m⌋ : ℤ) : ℚ) := by
    exact_mod_cast congrArg (fun z : ℤ => (z : ℚ)) (Int.toNat_of_nonneg hfl)
  rw [hcast]
  exact Int.floor_le _

/-- Claim C1: Policy B removes at most `totalRemovalBudget = floor(N × m)`
rows (removal-set cardinality is budget-bounded), additions only increase the
size, so the data-loss percentage `100 × (N − |after|)/N` is at most
`m × 100` — in particular at most `m × 100 + 0.5`. -/
theorem policyB_data_loss_bound (df : Dataset) (diag : Diagnostics) (m : ℚ)
    (protectedCols : List String)
    (sample : String → Val → ℕ → Finset ℕ)
    (noise : String → Val → ℕ → String → ℚ)
    (hN : 0 < df.length) (hm : 0 ≤ m)
    (hs : ∀ f g n, n ≤ cnt df f g → (sample f g n).card = n) :
    (execRemovalsB df (budgetOf df m) sample
        (industryRemovalPlan df diag (budgetOf df m))).1.card ≤ budgetOf df m ∧
    df.length ≤ (industrySmoteRebalancing df diag m protectedCols sample noise).length
        + budgetOf df m ∧
    100 * ((df.length : ℚ)
        - (industrySmoteRebalancing df diag m protectedCols sample noise).length)
      / (df.length : ℚ) ≤ 100 * m ∧
    100 * ((df.length : ℚ)
        - (industrySmoteRebalancing df diag m protectedCols sample noise).length)
      / (df.length : ℚ) ≤ 100 * m + 1 / 2 := by
  have hinv := execRemovalsB_aux df (budgetOf df m) sample hs
    (industryRemovalPlan df diag (budgetOf df m)) (∅, 0, []) (Nat.zero_le _)
    (by simp)
  have hcard : (execRemovalsB df (budgetOf df m) sample
      (industryRemovalPlan df diag (budgetOf df m))).1.card ≤ budgetOf df m :=
    le_trans hinv.2 hinv.1
  have hlen : (industrySmoteRebalancing df diag m protectedCols sample noise).length
      = (afterRemoval df (execRemovalsB df (budgetOf df m) sample
          (industryRemovalPlan df diag (budgetOf df m))).1).length
        + (smoteAdditions (afterRemoval df (execRemovalsB df (budgetOf df m) sample
            (industryRemovalPlan df diag (budgetOf df m))).1) diag protectedCols
            noise).length := by
    show ((afterRemoval df (execRemovalsB df (budgetOf df m) sample
        (industryRemovalPlan df diag (budgetOf df m))).1)
      ++ smoteAdditions (afterRemoval df (execRemovalsB df (budgetOf df m) sample
        (industryRemovalPlan df diag (budgetOf df m))).1) diag protectedCols
        noise).length = _
    exact List.length_append _ _
  have hge := length_afterRemoval_ge df (execRemovalsB df (budgetOf df m) sample
      (industryRemovalPlan df diag (budgetOf df m))).1
  have hnat : df.length
      ≤ (industrySmoteRebalancing df diag m protectedCols sample noise).length
        + budgetOf df m := by omega
  have hNpos : (0 : ℚ) < (df.length : ℚ) := by exact_mod_cast hN
  have hq1 : ((df.length : ℚ)
      - (industrySmoteRebalancing df diag m protectedCols sample noise).length)
      ≤ (budgetOf df m : ℚ) := by
    have hq : (df.length : ℚ)
        ≤ ((industrySmoteRebalancing df diag m protectedCols sample noise).length : ℚ)
          + (budgetOf df m : ℚ) := by
      exact_mod_cast hnat
    linarith
  have hq2 : ((df.length : ℚ)
      - (industrySmoteRebalancing df diag m protectedCols sample noise).length)
      ≤ (df.length : ℚ) * m := le_trans hq1 (budgetOf_le df m hm)
  have hmain : 100 * ((df.length : ℚ)
      - (industrySmoteRebalancing df diag m protectedCols sample noise).length)
      / (df.length : ℚ) ≤ 100 * m := by
    rw [div_le_iff₀ hNpos]
    nlinarith
  exact ⟨hcard, hnat, hmain, by linarith⟩

/-- Claim C10: every Policy B removal proposal that gets executed passed the
strict guard `group_mask.sum() > n_remove`: it is smaller than the category's
current size, so at least one row of the category survives the removal; a
proposal equal to or exceeding the category size is never executed. -/
theorem policyB_removal_guard (df : Dataset) (diag : Diagnostics) (budget : ℕ)
    (sample : String → Val → ℕ → Finset ℕ) :
    ∀ e ∈ (execRemovalsB df budget sample
        (industryRemovalPlan df diag budget)).2.2,
      e.2 < cnt df e.1.1 e.1.2 ∧ 1 ≤ cnt df e.1.1 e.1.2 - e.2 := by
  intro e he
  have h := execRemovalsB_executed_aux df budget sample
    (industryRemovalPlan df diag budget) (∅, 0, [])
    (by intro e' he'; simp at he') e he
  exact ⟨h, by omega⟩

/-! ## Claim theorems: Policy A executor invariants -/

theorem removalEntries_le (df : Dataset)
    (plans : List (String × List (Val × ℤ))) :
    ∀ e ∈ removalEntries df plans, e.2 ≤ cnt df e.1.1 e.1.2 := by
  intro e he
  simp only [removalEntries, List.mem_flatten, List.mem_map] at he
  obtain ⟨l, ⟨fp, hfp, rfl⟩, hel⟩ := he
  rw [List.mem_filterMap] at hel
  obtain ⟨gc, hgc, heq⟩ := hel
  split_ifs at heq with h1 h2
  · have := Option.some.inj heq
    subst this
    exact min_le_right _ _

theorem removalUnionA_aux (df : Dataset)
    (sample : String → Val → ℕ → Finset ℕ)
    (hs : ∀ f g n, n ≤ cnt df f g →
      sample f g n ⊆ (groupIdx df f g).toFinset) :
    ∀ (entries : List ((String × Val) × ℕ)),
    (∀ e ∈ entries, e.2 ≤ cnt df e.1.1 e.1.2) →
    ∀ (U₀ : Finset ℕ), (∀ j ∈ U₀, j < df.length) →
    ∀ j ∈ entries.foldl (fun U e => U ∪ sample e.1.1 e.1.2 e.2) U₀,
      j < df.length := by
  intro entries
  induction entries with
  | nil => intro _ U₀ hU₀ j hj; exact hU₀ j hj
  | cons e rest ih =>
      intro hent U₀ hU₀ j hj
      rw [List.foldl_cons] at hj
      refine ih (fun e' he' => hent e' (List.mem_cons_of_mem e he'))
        (U₀ ∪ sample e.1.1 e.1.2 e.2) ?_ j hj
      intro j' hj'
      rw [Finset.mem_union] at hj'
      rcases hj' with hj' | hj'
      · exact hU₀ j' hj'
      · have hmem := hs e.1.1 e.1.2 e.2 (hent e (List.mem_cons_self e rest)) hj'
        rw [List.mem_toFinset] at hmem
        exact mem_groupIdx_lt df e.1.1 e.1.2 j' hmem

/-- Claim C6: the surgical executor samples exactly
`min(|d|, categorySize)` rows for each negative delta — never more rows than
the category holds — and the output size is the input size minus the number
of (deduplicated) removed rows plus the number of added rows. -/
theorem executor_size_invariant (df : Dataset)
    (plans : List (String × List (Val × ℤ)))
    (sample : String → Val → ℕ → Finset ℕ)
    (addRows : String → Val → ℕ → List Row)
    (hs : ∀ f g n, n ≤ cnt df f g →
      (sample f g n).card = n ∧ sample f g n ⊆ (groupIdx df f g).toFinset) :
    (∀ fp ∈ plans, ∀ gc ∈ fp.2, gc.2 < 0 →
      min gc.2.natAbs (cnt df fp.1 gc.1) ≤ cnt df fp.1 gc.1 ∧
      (sample fp.1 gc.1 (min gc.2.natAbs (cnt df fp.1 gc.1))).card
        = min gc.2.natAbs (cnt df fp.1 gc.1)) ∧
    (executePlans df plans sample addRows).length
        + (removalUnionA sample (removalEntries df plans)).card
      = df.length
        + (additionsA (afterRemoval df (removalUnionA sample (removalEntries df plans)))
            plans addRows).length := by
  constructor
  · intro fp _ gc _ _
    exact ⟨min_le_right _ _, (hs _ _ _ (min_le_right _ _)).1⟩
  · have hb : ∀ j ∈ removalUnionA sample (removalEntries df plans),
        j < df.length := by
      apply removalUnionA_aux df sample (fun f g n hn => (hs f g n hn).2)
        (removalEntries df plans) (removalEntries_le df plans)
      intro j hj
      simp at hj
    have hsz := length_afterRemoval_of_subset df
      (removalUnionA sample (removalEntries df plans)) hb
    show ((afterRemoval df (removalUnionA sample (removalEntries df plans)))
        ++ additionsA (afterRemoval df (removalUnionA sample (removalEntries df plans)))
            plans addRows).length
        + (removalUnionA sample (removalEntries df plans)).card
      = _
    rw [List.length_append]
    omega

/-! ## The A:800 / B:100 / C:100 scenario (claims C3 and C4) -/

theorem len_df1000 : df1000.length = 1000 := by
  rw [df1000, List.length_append, List.length_append, block, block, block,
    List.length_replicate, List.length_replicate, List.length_replicate]

theorem cats_df1000 : cats df1000 "Group" = [vA, vB, vC] :=
  cats_three "Group" vA vB vC 800 100 100 (by norm_num) (by norm_num)
    (by norm_num) (by decide) (by decide) (by decide)

theorem cnt_df1000_A : cnt df1000 "Group" vA = 800 := by
  rw [df1000, cnt_append, cnt_append, cnt_block, cnt_block, cnt_block]
  simp [vA, vB, vC]

theorem cnt_df1000_B : cnt df1000 "Group" vB = 100 := by
  rw [df1000, cnt_append, cnt_append, cnt_block, cnt_block, cnt_block]
  simp [vA, vB, vC]

theorem cnt_df1000_C : cnt df1000 "Group" vC = 100 := by
  rw [df1000, cnt_append, cnt_append, cnt_block, cnt_block, cnt_block]
  simp [vA, vB, vC]

theorem colLen_df1000 : colLen df1000 "Group" = 1000 := by
  rw [colLen, df1000, colVals_append, colVals_append, colVals_block,
    colVals_block, colVals_block, List.length_append, List.length_append,
    List.length_replicate, List.length_replicate, List.length_replicate]

theorem numCats_df1000 : numCats df1000 "Group" = 3 := by
  rw [numCats, cats_df1000]
  rfl

theorem prop_df1000_A : prop df1000 "Group" vA = 4 / 5 := by
  rw [prop, cnt_df1000_A, colLen_df1000]
  norm_num

theorem prop_df1000_B : prop df1000 "Group" vB = 1 / 10 := by
  rw [prop, cnt_df1000_B, colLen_df1000]
  norm_num

theorem prop_df1000_C : prop df1000 "Group" vC = 1 / 10 := by
  rw [prop, cnt_df1000_C, colLen_df1000]
  norm_num

/-- The chi-square statistic of the scenario is exactly 980. -/
theorem chi2_df1000 : chi2Stat df1000 "Group" = 980 := by
  simp only [chi2Stat, cats_df1000, List.map_cons, List.map_nil, cnt_df1000_A,
    cnt_df1000_B, cnt_df1000_C, List.length_cons, List.length_nil,
    List.sum_cons, List.sum_nil, len_df1000]
  norm_num

theorem hasCol_df1000 : hasCol df1000 "Group" = true :=
  hasCol_block_left "Group" vA 800 _ (by norm_num)

/-- The full diagnosis of the scenario dataset, for any p-value backend that
flags the 980 statistic significant. -/
theorem diagnosis_df1000 (sf : ℚ → ℕ → ℚ) (alpha : ℚ) (h : sf 980 3 < alpha) :
    comprehensiveStatisticalDiagnosis sf df1000 wG alpha
      = ⟨[("Group", ⟨980, sf 980 3, true, 49 / 50⟩)], 1000⟩ := by
  simp only [comprehensiveStatisticalDiagnosis, wG, List.map_cons, List.map_nil,
    List.filter_cons, hasCol_df1000, if_true, List.filter_nil, chi2_df1000,
    numCats_df1000, len_df1000, decide_eq_true h]
  norm_num

/-- Claim C3 counterexample: on the A:800/B:100/C:100 dataset the engine's
chi-square statistic is 980 and the effect size is 0.98 — not ≈621 and
≈0.62 as claimed; the reported values miss the claimed ones by more than
50 percent. -/
theorem diagnose_scenario_counterexample :
    chi2Stat df1000 "Group" = 980 ∧
    (comprehensiveStatisticalDiagnosis sfZero df1000 wG (1 / 20)).featureTests
      = [("Group", ⟨980, 0, true, 49 / 50⟩)] ∧
    ¬ (|(980 : ℚ) - 621| ≤ 621 / 2) ∧
    ¬ (|(49 / 50 : ℚ) - 62 / 100| ≤ (62 / 100) / 2) := by
  refine ⟨chi2_df1000, ?_, ?_, ?_⟩
  · rw [diagnosis_df1000 sfZero (1 / 20) (by norm_num [sfZero])]
    rfl
  · rw [show (980 : ℚ) - 621 = 359 by norm_num,
      abs_of_nonneg (by norm_num : (0 : ℚ) ≤ 359)]
    norm_num
  · rw [show (49 / 50 : ℚ) - 62 / 100 = 9 / 25 by norm_num,
      abs_of_nonneg (by norm_num : (0 : ℚ) ≤ 9 / 25)]
    norm_num

/-- Claim C3 (amended): for the dataset with feature "Group" and counts
A:800, B:100, C:100, the chi-square diagnosis against the uniform
expectation reports `significant = true` (for any p-value backend flagging
the statistic below alpha — scipy's p here is astronomically small), with
chi-square statistic 980 and effect size 980/1000 = 0.98. -/
theorem diagnose_scenario (sf : ℚ → ℕ → ℚ) (alpha : ℚ) (h : sf 980 3 < alpha) :
    (comprehensiveStatisticalDiagnosis sf df1000 wG alpha).featureTests
      = [("Group", ⟨980, sf 980 3, true, 49 / 50⟩)] ∧
    (comprehensiveStatisticalDiagnosis sf df1000 wG alpha).datasetSize = 1000 := by
  rw [diagnosis_df1000 sf alpha h]
  exact ⟨rfl, rfl⟩

theorem diagnose_scenario_witness :
    sfZero 980 3 < 1 / 20 ∧
    (comprehensiveStatisticalDiagnosis sfZero df1000 wG (1 / 20)).featureTests
      = [("Group", ⟨980, sfZero 980 3, true, 49 / 50⟩)] :=
  ⟨by norm_num [sfZero],
    (diagnose_scenario sfZero (1 / 20) (by norm_num [sfZero])).1⟩

/-- The Policy A plan of the scenario: remove
`int(800 × ((0.8 − 1/3)/0.8) × 0.7) = 326` from A, add
`int(100 × ((1/3 − 0.1)/(1/3)) × 0.8) = int(56.0) = 56` to each of B, C. -/
theorem plan_df1000 : calculateRebalancingPlan df1000 "Group"
    = [(vA, -326), (vB, 56), (vC, 56)] := by
  simp only [calculateRebalancingPlan, numCats_df1000, cats_df1000,
    List.map_cons, List.map_nil, prop_df1000_A, prop_df1000_B, prop_df1000_C,
    cnt_df1000_A, cnt_df1000_B, cnt_df1000_C]
  norm_num

theorem sigFeatures_diagScenario : sigFeatures diagScenario = [("Group", 49 / 50)] := by
  norm_num [sigFeatures, diagScenario, sortDesc, insertDesc,
    List.filterMap_cons, List.filterMap_nil]

/-- Claim C4 counterexample: in the scenario plan the additions to B and C
are 56 each (the exact value of `int(100 × 0.7 × 0.8)`), not the claimed 55,
so the resulting dataset has 1000 − 326 + 56 + 56 = 786 records, not 784. -/
theorem policyA_scenario_counterexample :
    calculateRebalancingPlan df1000 "Group" = [(vA, -326), (vB, 56), (vC, 56)] ∧
    ⌊(100 : ℚ) * ((7 / 30) / (1 / 3)) * (8 / 10)⌋ = 56 ∧ (56 : ℤ) ≠ 55 ∧
    (1000 - 326 + 56 + 56 : ℤ) = 786 ∧ (786 : ℤ) ≠ 784 :=
  ⟨plan_df1000, by norm_num, by norm_num, by norm_num, by norm_num⟩

/-- Claim C4 (amended): when Policy A selects the "Group" feature of the
scenario dataset, its plan removes 326 rows from A and adds 56 — not 55 —
rows to each of B and C, and the rebalanced dataset has
1000 − 326 + 56 + 56 = 786 records, for every sampler honouring the
`DataFrame.sample` contract and every with-replacement addition oracle. -/
theorem policyA_scenario (sample : String → Val → ℕ → Finset ℕ)
    (addRows : String → Val → ℕ → List Row)
    (hs : ∀ n, n ≤ 800 → (sample "Group" vA n).card = n ∧
        sample "Group" vA n ⊆ (groupIdx df1000 "Group" vA).toFinset)
    (ha : ∀ f g n, (addRows f g n).length = n) :
    calculateRebalancingPlan df1000 "Group" = [(vA, -326), (vB, 56), (vC, 56)] ∧
    (evidenceBasedRebalancing df1000 diagScenario sample addRows).length = 786 := by
  refine ⟨plan_df1000, ?_⟩
  -- the run reduces to the executor on the single plan
  have hrun : evidenceBasedRebalancing df1000 diagScenario sample addRows
      = executePlans df1000 [("Group", calculateRebalancingPlan df1000 "Group")]
          sample addRows := by
    simp only [evidenceBasedRebalancing, sigFeatures_diagScenario,
      List.isEmpty_cons, List.map_cons, List.map_nil]
    rfl
  rw [hrun, plan_df1000]
  -- removal entries: exactly 326 rows sampled from A
  have hentries : removalEntries df1000 [("Group", [(vA, -326), (vB, 56), (vC, 56)])]
      = [(("Group", vA), 326)] := by
    simp only [removalEntries, List.map_cons, List.map_nil, List.filterMap_cons,
      List.filterMap_nil, cnt_df1000_A]
    norm_num
  have hunion : removalUnionA sample [(("Group", vA), 326)]
      = sample "Group" vA 326 := by
    simp [removalUnionA]
  have hUspec := hs 326 (by norm_num)
  have hUlt : ∀ j ∈ sample "Group" vA 326, j < df1000.length := by
    intro j hj
    have := hUspec.2 hj
    rw [List.mem_toFinset] at this
    exact mem_groupIdx_lt df1000 "Group" vA j this
  have hAfterLen : (afterRemoval df1000 (sample "Group" vA 326)).length = 674 := by
    have := length_afterRemoval_of_subset df1000 (sample "Group" vA 326) hUlt
    rw [hUspec.1, len_df1000] at this
    omega
  have hcntB : cnt (afterRemoval df1000 (sample "Group" vA 326)) "Group" vB = 100 := by
    rw [cnt_afterRemoval_other df1000 (sample "Group" vA 326) "Group" vA vB
      hUspec.2 (by decide), cnt_df1000_B]
  have hcntC : cnt (afterRemoval df1000 (sample "Group" vA 326)) "Group" vC = 100 := by
    rw [cnt_afterRemoval_other df1000 (sample "Group" vA 326) "Group" vA vC
      hUspec.2 (by decide), cnt_df1000_C]
  have hadds : (additionsA (afterRemoval df1000 (sample "Group" vA 326))
      [("Group", [(vA, -326), (vB, 56), (vC, 56)])] addRows).length = 112 := by
    simp only [additionsA, List.map_cons, List.map_nil, hcntB, hcntC]
    norm_num [ha]
    decide
  show ((afterRemoval df1000 (removalUnionA sample
        (removalEntries df1000 [("Group", [(vA, -326), (vB, 56), (vC, 56)])])))
      ++ additionsA (afterRemoval df1000 (removalUnionA sample
        (removalEntries df1000 [("Group", [(vA, -326), (vB, 56), (vC, 56)])])))
        [("Group", [(vA, -326), (vB, 56), (vC, 56)])] addRows).length = 786
  rw [hentries, hunion, List.length_append, hAfterLen, hadds]

theorem policyA_scenario_witness :
    calculateRebalancingPlan df1000 "Group" = [(vA, -326), (vB, 56), (vC, 56)] ∧
    (evidenceBasedRebalancing df1000 diagScenario (canonicalSample df1000)
        (fun _ _ n => List.replicate n [])).length = 786 :=
  policyA_scenario (canonicalSample df1000) (fun _ _ n => List.replicate n [])
    (fun n hn => canonicalSample_spec df1000 "Group" vA n
      (by rw [cnt_df1000_A]; exact hn))
    (fun _ _ n => List.length_replicate n [])

/-! ## Claim C5: the Policy B oversampling step -/

theorem lookup_map_entries {β : Type} (F : String → β → β)
    (r : List (String × β)) (c : String) :
    List.lookup c (r.map (fun cv => (cv.1, F cv.1 cv.2)))
      = (List.lookup c r).map (F c) := by
  induction r with
  | nil => rfl
  | cons cv tl ih =>
      obtain ⟨k, v⟩ := cv
      by_cases h : c = k
      · subst h
        simp [List.lookup]
      · have hbeq : (c == k) = false := beq_eq_false_iff_ne.mpr h
        simp [List.lookup, hbeq, ih]

/-- Looking up a column after the jitter map yields the tweaked value. -/
theorem getVal_perturbRow (ncols : List String) (δc : String → ℚ) (r : Row)
    (c : String) :
    getVal (perturbRow ncols δc r) c
      = (getVal r c).map (tweakVal ncols δc c) := by
  rw [getVal, perturbRow, lookup_map_entries (tweakVal ncols δc) r c, getVal]

theorem getD_map_range {α : Type} (n : ℕ) (h : ℕ → α) (d : α) (i : ℕ)
    (hi : i < n) : ((List.range n).map h).getD i d = h i := by
  rw [List.getD_eq_getElem?_getD, List.getElem?_map, List.getElem?_range hi]
  rfl

/-- The group rows are exactly as many as the category count. -/
theorem groupData_length (df : Dataset) (f : String) (g : Val) :
    (groupData df f g).length = cnt df f g := rfl

/-- Claim C5 (amended): under Policy B, after removals, a category whose
proportion is below 0.8 × expected, whose `n_needed` exceeds 2 (the code
skips `n_needed ≤ 2`), and which holds at least 2 rows, receives exactly
`min(n_needed, 3 × categorySize)` duplicates built by cycling through the
group's rows; each duplicate multiplies every non-protected numeric column
by `1 + δ` with the drawn jitter `δ` (uniform in [−5%, +5%] at runtime:
hypothesis `hδ`) and copies every other cell — categorical or protected —
exactly. -/
theorem policyB_additions_spec (df' : Dataset) (protectedCols : List String)
    (f : String) (g : Val) (δ : ℕ → String → ℚ)
    (hp : prop df' f g < 1 / (numCats df' f : ℚ) * (4 / 5))
    (hn : nNeededB df' f g > 2)
    (hg : 2 ≤ (groupData df' f g).length)
    (hδ : ∀ i c, |δ i c| ≤ 1 / 20) :
    (groupAdditions df' protectedCols f g δ).length
        = min (nNeededB df' f g) ((groupData df' f g).length * 3) ∧
    ∀ i, i < min (nNeededB df' f g) ((groupData df' f g).length * 3) →
      ∀ c : String,
      (∀ q : ℚ,
        getVal ((groupData df' f g).getD (i % (groupData df' f g).length) []) c
            = some (Val.num q) →
        c ∈ effNumCols df' protectedCols →
        ∃ d : ℚ, |d| ≤ 1 / 20 ∧
          getVal ((groupAdditions df' protectedCols f g δ).getD i []) c
            = some (Val.num (q * (1 + d)))) ∧
      (∀ v : Val,
        getVal ((groupData df' f g).getD (i % (groupData df' f g).length) []) c
            = some v →
        c ∉ effNumCols df' protectedCols →
        getVal ((groupAdditions df' protectedCols f g δ).getD i []) c = some v) ∧
      (∀ s : String,
        getVal ((groupData df' f g).getD (i % (groupData df' f g).length) []) c
            = some (Val.str s) →
        getVal ((groupAdditions df' protectedCols f g δ).getD i []) c
          = some (Val.str s)) := by
  have hpos : min (nNeededB df' f g) ((groupData df' f g).length * 3) > 0 := by
    omega
  have hadd : groupAdditions df' protectedCols f g δ
      = (List.range (min (nNeededB df' f g) ((groupData df' f g).length * 3))).map
          (fun i => perturbRow (effNumCols df' protectedCols) (δ i)
            ((groupData df' f g).getD (i % (groupData df' f g).length) [])) := by
    simp only [groupAdditions]
    rw [if_pos hp, if_pos hn, if_pos hg, if_pos hpos]
  constructor
  · rw [hadd, List.length_map, List.length_range]
  · intro i hi c
    have hout : (groupAdditions df' protectedCols f g δ).getD i []
        = perturbRow (effNumCols df' protectedCols) (δ i)
            ((groupData df' f g).getD (i % (groupData df' f g).length) []) := by
      rw [hadd]
      exact getD_map_range _ _ _ i hi
    have hlook : ∀ c' : String,
        getVal ((groupAdditions df' protectedCols f g δ).getD i []) c'
          = (getVal ((groupData df' f g).getD (i % (groupData df' f g).length) []) c').map
              (tweakVal (effNumCols df' protectedCols) (δ i) c') := by
      intro c'
      rw [hout, getVal_perturbRow]
    refine ⟨?_, ?_, ?_⟩
    · intro q hq hc
      refine ⟨δ i c, hδ i c, ?_⟩
      rw [hlook c, hq]
      simp [tweakVal, hc]
    · intro v hv hc
      rw [hlook c, hv]
      simp [tweakVal, hc]
    · intro s hs
      rw [hlook c, hs]
      by_cases hc : c ∈ effNumCols df' protectedCols <;> simp [tweakVal, hc]

theorem cnt_two_left (f : String) (a b : Val) (na nb : ℕ) (hab : a ≠ b) :
    cnt (block f a na ++ block f b nb) f a = na := by
  rw [cnt_append, cnt_block, cnt_block, if_pos rfl,
    if_neg (fun hc => hab hc.symm)]
  omega

theorem cnt_two_right (f : String) (a b : Val) (na nb : ℕ) (hab : a ≠ b) :
    cnt (block f a na ++ block f b nb) f b = nb := by
  rw [cnt_append, cnt_block, cnt_block, if_neg hab, if_pos rfl]
  omega

theorem colLen_two (f : String) (a b : Val) (na nb : ℕ) :
    colLen (block f a na ++ block f b nb) f = na + nb := by
  rw [colLen, colVals_append, colVals_block, colVals_block,
    List.length_append, List.length_replicate, List.length_replicate]

theorem prop_df10_y : prop df10 "G" (Val.str "y") = 1 / 5 := by
  rw [prop, df10, cnt_two_right _ _ _ _ _ (by decide), colLen_two]
  norm_num

theorem numCats_df10 : numCats df10 "G" = 2 := by
  rw [numCats, df10, cats_two _ _ _ _ _ (by norm_num) (by norm_num) (by decide)]
  rfl

theorem len_df10 : df10.length = 10 := by
  rw [df10, List.length_append, block, block, List.length_replicate,
    List.length_replicate]

theorem nNeededB_df10 : nNeededB df10 "G" (Val.str "y") = 2 := by
  simp only [nNeededB, prop_df10_y, numCats_df10, len_df10]
  norm_num
  rfl

/-- Claim C5 counterexample: on a post-removal dataset of 10 rows with
8 x / 2 y, the y category has proportion 0.2 < 0.8 × expected, holds 2 rows,
and the claimed number of duplicates min(nNeeded, 3 × categorySize) is 2 —
but the code requires `n_needed > 2` and adds nothing at all. -/
theorem policyB_additions_counterexample :
    prop df10 "G" (Val.str "y") < 1 / (numCats df10 "G" : ℚ) * (4 / 5) ∧
    2 ≤ (groupData df10 "G" (Val.str "y")).length ∧
    nNeededB df10 "G" (Val.str "y") = 2 ∧
    min (nNeededB df10 "G" (Val.str "y"))
        ((groupData df10 "G" (Val.str "y")).length * 3) = 2 ∧
    groupAdditions df10 [] "G" (Val.str "y") (fun _ _ => 0) = [] := by
  have hglen : (groupData df10 "G" (Val.str "y")).length = 2 := by
    rw [groupData_length, df10, cnt_two_right _ _ _ _ _ (by decide)]
  refine ⟨?_, ?_, nNeededB_df10, ?_, ?_⟩
  · rw [prop_df10_y, numCats_df10]
    norm_num
  · rw [hglen]
  · rw [hglen, nNeededB_df10]
    rfl
  · simp only [groupAdditions, prop_df10_y, numCats_df10, nNeededB_df10]
    rw [if_pos (by norm_num), if_neg (by norm_num)]

/-! ## Witnesses for the remaining claims -/

theorem colVals_replicate (r : Row) (f : String) (v : Val)
    (h : getVal r f = some v) (n : ℕ) :
    colVals (List.replicate n r) f = List.replicate n v := by
  induction n with
  | zero => rfl
  | succ k ih =>
      rw [List.replicate_succ, colVals, List.filterMap_cons, h,
        List.replicate_succ]
      show v :: colVals (List.replicate k r) f = v :: List.replicate k v
      exact congrArg (v :: ·) ih

theorem cnt_replicate (r : Row) (f : String) (w : Val) (n : ℕ) :
    cnt (List.replicate n r) f w = if getVal r f = some w then n else 0 := by
  induction n with
  | zero => simp [cnt]
  | succ k ih =>
      rw [List.replicate_succ, cnt_cons, ih]
      by_cases h : getVal r f = some w
      · simp [h]
        omega
      · simp [h]

theorem getVal_rowX_G : getVal rowX "G" = some (Val.str "x") := rfl

theorem getVal_rowY_G : getVal rowY "G" = some (Val.str "y") := rfl

theorem len_df20 : df20.length = 20 := by
  rw [df20, List.length_append, List.length_replicate, List.length_replicate]

theorem colLen_df20 : colLen df20 "G" = 20 := by
  rw [colLen, df20, colVals_append, colVals_replicate rowX "G" _ getVal_rowX_G,
    colVals_replicate rowY "G" _ getVal_rowY_G, List.length_append,
    List.length_replicate, List.length_replicate]

theorem cnt_df20_y : cnt df20 "G" (Val.str "y") = 4 := by
  rw [df20, cnt_append, cnt_replicate, cnt_replicate, getVal_rowX_G,
    getVal_rowY_G, if_neg (by decide), if_pos rfl]

theorem cats_df20 : cats df20 "G" = [Val.str "x", Val.str "y"] := by
  rw [cats, df20, colVals_append, colVals_replicate rowX "G" _ getVal_rowX_G,
    colVals_replicate rowY "G" _ getVal_rowY_G, List.dedup_append,
    dedup_replicate_of_ne_zero _ 4 (by norm_num),
    union_replicate_of_ne_zero _ 16 _ (by norm_num),
    List.insert_of_not_mem (by decide)]

theorem numCats_df20 : numCats df20 "G" = 2 := by
  rw [numCats, cats_df20]
  rfl

theorem prop_df20_y : prop df20 "G" (Val.str "y") = 1 / 5 := by
  rw [prop, cnt_df20_y, colLen_df20]
  norm_num

theorem nNeededB_df20 : nNeededB df20 "G" (Val.str "y") = 4 := by
  simp only [nNeededB, prop_df20_y, numCats_df20, len_df20]
  norm_num
  rfl

theorem policyB_additions_spec_witness :
    prop df20 "G" (Val.str "y") < 1 / (numCats df20 "G" : ℚ) * (4 / 5) ∧
    nNeededB df20 "G" (Val.str "y") > 2 ∧
    2 ≤ (groupData df20 "G" (Val.str "y")).length ∧
    (groupAdditions df20 [] "G" (Val.str "y") (fun _ _ => 1 / 100)).length
      = min (nNeededB df20 "G" (Val.str "y"))
          ((groupData df20 "G" (Val.str "y")).length * 3) := by
  have hp : prop df20 "G" (Val.str "y") < 1 / (numCats df20 "G" : ℚ) * (4 / 5) := by
    rw [prop_df20_y, numCats_df20]
    norm_num
  have hn : nNeededB df20 "G" (Val.str "y") > 2 := by
    rw [nNeededB_df20]
    norm_num
  have hg : 2 ≤ (groupData df20 "G" (Val.str "y")).length := by
    rw [groupData_length, cnt_df20_y]
    norm_num
  exact ⟨hp, hn, hg,
    (policyB_additions_spec df20 [] "G" (Val.str "y") (fun _ _ => 1 / 100) hp hn hg
      (fun i c => by
        show |(1 : ℚ) / 100| ≤ 1 / 20
        rw [abs_of_nonneg (by norm_num : (0 : ℚ) ≤ 1 / 100)]
        norm_num)).1⟩

theorem len_before1000 : before1000.length = 1000 := by
  rw [before1000, List.length_append, block, block, List.length_replicate,
    List.length_replicate]

theorem len_after950 : after950.length = 950 := by
  rw [after950, List.length_append, block, block, List.length_replicate,
    List.length_replicate]

theorem distVec_before1000 : distVec before1000 "G" = [1 / 2, 1 / 2] := by
  have hc : cats before1000 "G" = [va2, vb2] := by
    rw [before1000]
    exact cats_two "G" va2 vb2 500 500 (by norm_num) (by norm_num) (by decide)
  have hpa : prop before1000 "G" va2 = 1 / 2 := by
    rw [prop, before1000, cnt_two_left _ _ _ _ _ (by decide), colLen_two]
    norm_num
  have hpb : prop before1000 "G" vb2 = 1 / 2 := by
    rw [prop, before1000, cnt_two_right _ _ _ _ _ (by decide), colLen_two]
    norm_num
  rw [distVec, hc, List.map_cons, List.map_cons, List.map_nil, hpa, hpb]

theorem distVec_after950 : distVec after950 "G" = [3 / 5, 2 / 5] := by
  have hc : cats after950 "G" = [va2, vb2] := by
    rw [after950]
    exact cats_two "G" va2 vb2 570 380 (by norm_num) (by norm_num) (by decide)
  have hpa : prop after950 "G" va2 = 3 / 5 := by
    rw [prop, after950, cnt_two_left _ _ _ _ _ (by decide), colLen_two]
    norm_num
  have hpb : prop after950 "G" vb2 = 2 / 5 := by
    rw [prop, after950, cnt_two_right _ _ _ _ _ (by decide), colLen_two]
    norm_num
  rw [distVec, hc, List.map_cons, List.map_cons, List.map_nil, hpa, hpb]

/-- The validator scenario's per-feature improvement is exactly 20%. -/
theorem fairness_c2 :
    (validateIndustryReadiness wdC2 before1000 after950 diagG).fairnessImprovement
      = [("G", 20)] := by
  show ((diagG.featureTests.filter (fun fs => fs.2.significantBias)).map (fun fs =>
      (fs.1, wImprovement
        (wdC2 (distVec before1000 fs.1) (uniformVec (distVec before1000 fs.1).length))
        (wdC2 (distVec after950 fs.1) (uniformVec (distVec before1000 fs.1).length)))))
    = [("G", 20)]
  norm_num [diagG, List.filter_cons, List.filter_nil, List.map_cons,
    List.map_nil, distVec_before1000, distVec_after950, wdC2, wImprovement,
    uniformVec, List.replicate]

theorem validateIndustryReadiness_spec_witness :
    before1000.length = 1000 ∧ after950.length = 950 ∧
    (validateIndustryReadiness wdC2 before1000 after950 diagG).fairnessImprovement
      = [("G", 20)] ∧
    (validateIndustryReadiness wdC2 before1000 after950 diagG).retentionRate = 95 ∧
    (validateIndustryReadiness wdC2 before1000 after950 diagG).meetsDataRetention
      = true ∧
    (validateIndustryReadiness wdC2 before1000 after950 diagG).meaningfulFairnessGain
      = true ∧
    (validateIndustryReadiness wdC2 before1000 after950 diagG).productionReady
      = true := by
  have hspec := validateIndustryReadiness_spec wdC2 before1000 after950 diagG
  have hret : (validateIndustryReadiness wdC2 before1000 after950 diagG).retentionRate
      = 95 := by
    rw [hspec.1, len_after950, len_before1000]
    norm_num
  have hmeets : (validateIndustryReadiness wdC2 before1000 after950 diagG).meetsDataRetention
      = true := by
    apply (hspec.2.2.1).mpr
    rw [hret]
    norm_num
  have hmean : (validateIndustryReadiness wdC2 before1000 after950 diagG).meaningfulFairnessGain
      = true := by
    apply (hspec.2.2.2.1 (by rw [fairness_c2]; simp)).mpr
    rw [fairness_c2]
    norm_num
  have hprod : (validateIndustryReadiness wdC2 before1000 after950 diagG).productionReady
      = true := by
    rw [hspec.2.2.2.2, hmeets, hmean]
    rfl
  exact ⟨len_before1000, len_after950, fairness_c2, hret, hmeets, hmean, hprod⟩

theorem productionReady_requires_significant_witness :
    (validateIndustryReadiness (fun _ _ => 0) df2 df2 diagNS).fairnessImprovement
      = [] ∧
    (validateIndustryReadiness (fun _ _ => 0) df2 df2 diagNS).meaningfulFairnessGain
      = false ∧
    (validateIndustryReadiness (fun _ _ => 0) df2 df2 diagNS).productionReady
      = false :=
  productionReady_requires_significant (fun _ _ => 0) df2 df2 diagNS (by decide)

theorem noop_when_not_required_witness :
    requiresMitigation diagNS = false ∧
    evidenceBasedRebalancing df2 diagNS (canonicalSample df2) (fun _ _ _ => []) = df2 ∧
    industrySmoteRebalancing df2 diagNS (8 / 100) [] (canonicalSample df2)
      (fun _ _ _ _ => 0) = df2 := by
  have h : requiresMitigation diagNS = false := by decide
  have hm := noop_when_not_required df2 diagNS (canonicalSample df2)
    (fun _ _ _ => []) (canonicalSample df2) (fun _ _ _ _ => 0) (8 / 100) [] 0 h
  exact ⟨h, hm.2.1, hm.2.2.2⟩

theorem len_df40 : df40.length = 40 := by
  rw [df40, List.length_append, block, block, List.length_replicate,
    List.length_replicate]

theorem cats_df40 : cats df40 "G" = [Val.str "x", Val.str "y"] := by
  rw [df40]
  exact cats_two "G" _ _ 36 4 (by norm_num) (by norm_num) (by decide)

theorem cnt_df40_x : cnt df40 "G" (Val.str "x") = 36 := by
  rw [df40]
  exact cnt_two_left _ _ _ _ _ (by decide)

theorem colLen_df40 : colLen df40 "G" = 40 := by
  rw [df40, colLen_two]

theorem numCats_df40 : numCats df40 "G" = 2 := by
  rw [numCats, cats_df40]
  rfl

theorem prop_df40_x : prop df40 "G" (Val.str "x") = 9 / 10 := by
  rw [prop, cnt_df40_x, colLen_df40]
  norm_num

theorem prop_df40_y : prop df40 "G" (Val.str "y") = 1 / 10 := by
  have hcy : cnt df40 "G" (Val.str "y") = 4 := by
    rw [df40]
    exact cnt_two_right _ _ _ _ _ (by decide)
  rw [prop, hcy, colLen_df40]
  norm_num

theorem plan_df40 : industryRemovalPlan df40 diag40 3 = [(("G", Val.str "x"), 1)] := by
  simp only [industryRemovalPlan, diag40, List.map_cons, List.map_nil,
    cats_df40, List.filterMap_cons, List.filterMap_nil, prop_df40_x,
    prop_df40_y, numCats_df40, cnt_df40_x, List.flatten]
  norm_num

theorem exec_df40 : (execRemovalsB df40 3 (canonicalSample df40)
    [(("G", Val.str "x"), 1)]).2.2 = [(("G", Val.str "x"), 1)] := by
  have hcond : ((∅, 0, []) : Finset ℕ × ℕ × List ((String × Val) × ℕ)).2.1
        + ((("G", Val.str "x"), 1) : (String × Val) × ℕ).2 ≤ 3
      ∧ ((("G", Val.str "x"), 1) : (String × Val) × ℕ).2
        < cnt df40 "G" (Val.str "x") := by
    refine ⟨by norm_num, ?_⟩
    show 1 < cnt df40 "G" (Val.str "x")
    rw [cnt_df40_x]
    norm_num
  rw [execRemovalsB, List.foldl_cons, List.foldl_nil, stepB, if_pos hcond]
  rfl

/-- Witness for claim C10: on the 36/4 dataset with budget 3, the proposal
to remove 1 row of group x is executed, and indeed 1 < 36. -/
theorem policyB_removal_guard_witness :
    1 < cnt df40 "G" (Val.str "x") ∧ 1 ≤ cnt df40 "G" (Val.str "x") - 1 :=
  policyB_removal_guard df40 diag40 3 (canonicalSample df40)
    (("G", Val.str "x"), 1)
    (by rw [plan_df40, exec_df40]; exact List.mem_singleton_self _)

theorem policyB_data_loss_bound_witness :
    0 < df40.length ∧ (0 : ℚ) ≤ 8 / 100 ∧
    100 * ((df40.length : ℚ) - (industrySmoteRebalancing df40 diag40 (8 / 100) []
        (canonicalSample df40) (fun _ _ _ _ => 0)).length) / (df40.length : ℚ)
      ≤ 100 * (8 / 100) + 1 / 2 := by
  have hN : 0 < df40.length := by
    rw [len_df40]
    norm_num
  exact ⟨hN, by norm_num,
    (policyB_data_loss_bound df40 diag40 (8 / 100) [] (canonicalSample df40)
      (fun _ _ _ _ => 0) hN (by norm_num)
      (fun f g n h => canonicalSample_card df40 f g n h)).2.2.2⟩

theorem executor_size_invariant_witness :
    (∀ fp ∈ [("G", [(Val.str "x", (-2 : ℤ)), (Val.str "y", (3 : ℤ))])],
      ∀ gc ∈ fp.2, gc.2 < 0 →
      min gc.2.natAbs (cnt df4 fp.1 gc.1) ≤ cnt df4 fp.1 gc.1 ∧
      (canonicalSample df4 fp.1 gc.1 (min gc.2.natAbs (cnt df4 fp.1 gc.1))).card
        = min gc.2.natAbs (cnt df4 fp.1 gc.1)) ∧
    (executePlans df4 [("G", [(Val.str "x", (-2 : ℤ)), (Val.str "y", (3 : ℤ))])]
        (canonicalSample df4) (fun _ _ n => List.replicate n [])).length
      + (removalUnionA (canonicalSample df4)
          (removalEntries df4
            [("G", [(Val.str "x", (-2 : ℤ)), (Val.str "y", (3 : ℤ))])])).card
      = df4.length
      + (additionsA (afterRemoval df4 (removalUnionA (canonicalSample df4)
            (removalEntries df4
              [("G", [(Val.str "x", (-2 : ℤ)), (Val.str "y", (3 : ℤ))])])))
          [("G", [(Val.str "x", (-2 : ℤ)), (Val.str "y", (3 : ℤ))])]
          (fun _ _ n => List.replicate n [])).length :=
  executor_size_invariant df4
    [("G", [(Val.str "x", (-2 : ℤ)), (Val.str "y", (3 : ℤ))])]
    (canonicalSample df4) (fun _ _ n => List.replicate n [])
    (fun f g n h => canonicalSample_spec df4 f g n h)

end BiasClean
